import Mathlib

/-!
Verification of the batching queue consumer of `stock-db-postgres`
(`src/app/queue_handler.py`) via a shallow embedding.

The module has two transport adapters:
* `_start_rabbitmq_listener` (push adapter): a pika `on_message` callback
  decodes the body, appends `(message, delivery_tag)` to `message_batch`,
  and, when the batch reaches `batch_size` or `flush_timeout` seconds have
  elapsed since `last_flush_time`, calls the dispatch callback, then acks
  (on success) or nacks with `requeue=False` (on failure) every delivery
  tag, and finally clears the batch and sets `last_flush_time = now`.
* `_start_sqs_listener` (pull adapter): a polling loop receives up to
  `batch_size` messages, decodes each (appending the decoded message and
  its receipt handle, dropping undecodable ones with a log), and, when the
  batch is non-empty and full or timed out, calls the dispatch callback,
  deletes every receipt handle on success, logs on failure, and in a
  `finally` block clears both lists and sets `last_flush_time = now`.
  Any exception escaping the poll body is logged followed by a sleep of
  `polling_interval` seconds, and the loop continues.

Time (`time.time()`) is modelled as natural-number seconds; `now` is
sampled exactly where the Python samples it (once per `on_message` call
after the append, once per poll cycle after `receive_message` returns).
The dispatch callback is modelled as a function `List α → Bool`
(`true` = returns normally, `false` = raises).  Observable effects
(dispatch calls, acks, nacks, deletes, log records, sleeps) are collected
in an action trace.
-/

namespace QueueHandler

/-- Observable effects emitted by the adapters, in program order. -/
inductive Action (α : Type) where
  /-- the dispatch callback is invoked with this payload (line 80 / 147) -/
  | dispatch (payload : List α)
  /-- `ch.basic_ack(delivery_tag)` (line 82) -/
  | ack (tag : Nat)
  /-- `ch.basic_nack(delivery_tag, requeue=...)` (lines 73, 87) -/
  | nack (tag : Nat) (requeue : Bool)
  /-- `sqs_client.delete_message(ReceiptHandle=receipt)` (line 149) -/
  | delete (receipt : Nat)
  /-- `logger.exception("Failed to parse ...")` (lines 72, 141) -/
  | logDecodeError
  /-- `logger.exception("... batch processing failed ...")` (lines 85, 152) -/
  | logBatchError
  /-- `logger.error("SQS polling error ...")` (line 159) -/
  | logPollError
  /-- `time.sleep(secs)` (line 160) -/
  | sleep (secs : Nat)
  deriving Repr, DecidableEq

/-- `True` exactly for dispatch actions. -/
def Action.isDispatch {α : Type} : Action α → Bool
  | .dispatch _ => true
  | _ => false

/-- `True` for settlement actions: ack, nack or delete. -/
def Action.isSettle {α : Type} : Action α → Bool
  | .ack _ => true
  | .nack _ _ => true
  | .delete _ => true
  | _ => false

/-- `True` exactly for sleep actions. -/
def Action.isSleep {α : Type} : Action α → Bool
  | .sleep _ => true
  | _ => false

/-! ## Push adapter (`_start_rabbitmq_listener`) -/

/-- Mutable state captured by the `on_message` closure:
`message_batch` (decoded message paired with its delivery tag) and
`last_flush_time` (lines 63–64). -/
structure PushState (α : Type) where
  batch : List (α × Nat)
  lastFlushTime : Nat
  deriving Repr, DecidableEq

/-- One raw delivery handed to `on_message`: the decode result of the
body (`none` when `json.loads` raises), the delivery tag, and the value
`time.time()` returns at line 76 during this invocation. -/
structure Delivery (α : Type) where
  body : Option α
  tag : Nat
  now : Nat
  deriving Repr, DecidableEq

/-- The `on_message` handler (lines 66–90).  Decode failure nacks the
message without requeue and returns with the state untouched.  Otherwise
the message is appended and the flush condition
`len(message_batch) >= batch_size or (now - last_flush_time) >= flush_timeout`
is evaluated; on flush the callback runs on the tag-stripped payload,
every tag is acked (callback returned) or nacked with `requeue=False`
(callback raised), and the `finally` block clears the batch and sets
`last_flush_time = now`. -/
def onMessage {α : Type} (batchSize flushTimeout : Nat) (cb : List α → Bool)
    (s : PushState α) (d : Delivery α) : PushState α × List (Action α) :=
  match d.body with
  | none => (s, [.logDecodeError, .nack d.tag false])
  | some m =>
    let batch := s.batch ++ [(m, d.tag)]
    if batch.length ≥ batchSize ∨ d.now - s.lastFlushTime ≥ flushTimeout then
      let payload := batch.map Prod.fst
      if cb payload then
        (⟨[], d.now⟩, .dispatch payload :: batch.map (fun p => .ack p.2))
      else
        (⟨[], d.now⟩, .dispatch payload ::
          .logBatchError :: batch.map (fun p => .nack p.2 false))
    else
      (⟨batch, s.lastFlushTime⟩, [])

/-- Deliveries handed over during one `process_data_events` window,
processed in order by `on_message`. -/
def processDeliveries {α : Type} (batchSize flushTimeout : Nat)
    (cb : List α → Bool) :
    PushState α → List (Delivery α) → PushState α × List (Action α)
  | s, [] => (s, [])
  | s, d :: ds =>
    let r := onMessage batchSize flushTimeout cb s d
    let r2 := processDeliveries batchSize flushTimeout cb r.1 ds
    (r2.1, r.2 ++ r2.2)

/-- One iteration of the consume loop (lines 96–98): the value
`shutdown_event.is_set()` has at the top of the loop, and the deliveries
the following `process_data_events` call hands to `on_message`. -/
structure PushCycle (α : Type) where
  shutdown : Bool
  deliveries : List (Delivery α)
  deriving Repr

/-- The push consume loop: while the shutdown flag is unset, process a
window of deliveries; observing the flag set exits the loop at once (the
`finally` block only stops consuming and closes the connection, emitting
no dispatch or settlement). -/
def runPush {α : Type} (batchSize flushTimeout : Nat) (cb : List α → Bool) :
    PushState α → List (PushCycle α) → PushState α × List (Action α)
  | s, [] => (s, [])
  | s, c :: cs =>
    if c.shutdown then (s, [])
    else
      let r := processDeliveries batchSize flushTimeout cb s c.deliveries
      let r2 := runPush batchSize flushTimeout cb r.1 cs
      (r2.1, r.2 ++ r2.2)

/-! ## Pull adapter (`_start_sqs_listener`) -/

/-- Mutable loop state (lines 119–121): decoded messages, their receipt
handles (parallel list), and `last_flush_time`. -/
structure SqsState (α : Type) where
  batch : List α
  receipts : List Nat
  lastFlushTime : Nat
  deriving Repr, DecidableEq

/-- Outcome of `sqs_client.receive_message`: either the returned messages
(each a decode result paired with its receipt handle) or a raised
transport error. -/
inductive PollResult (α : Type) where
  | ok (msgs : List (Option α × Nat))
  | err
  deriving Repr

/-- One iteration of the poll loop: the shutdown flag at the top, the
poll outcome, the value `time.time()` returns at line 133, and the set of
receipt handles whose `delete_message` call raises during this cycle. -/
structure SqsCycle (α : Type) where
  shutdown : Bool
  poll : PollResult α
  now : Nat
  failingDeletes : List Nat
  deriving Repr

/-- The per-message decode loop (lines 135–141): a decodable body appends
the message and its receipt handle; `json.loads` raising is logged and the
message dropped. -/
def pollAppend {α : Type} :
    SqsState α → List (Option α × Nat) → SqsState α × List (Action α)
  | s, [] => (s, [])
  | s, (some m, h) :: rest =>
    let r := pollAppend ⟨s.batch ++ [m], s.receipts ++ [h], s.lastFlushTime⟩ rest
    (r.1, r.2)
  | s, (none, _) :: rest =>
    let r := pollAppend s rest
    (r.1, Action.logDecodeError :: r.2)

/-- `delete_message` over the receipt handles in order (lines 148–149);
the first handle in `failing` raises, ending the loop.  Returns the
actions emitted and whether an exception was raised. -/
def runDeletes {α : Type} (failing : List Nat) :
    List Nat → List (Action α) × Bool
  | [] => ([], false)
  | h :: rest =>
    if h ∈ failing then ([], true)
    else
      let r := runDeletes failing rest
      (Action.delete h :: r.1, r.2)

/-- The body of one poll iteration (lines 126–160).  A poll error is
logged and followed by `time.sleep(polling_interval)`.  Otherwise the
messages are decoded and appended, then if the batch is non-empty and
`len(message_batch) >= batch_size or (now - last_flush_time) >= flush_timeout`,
the callback runs on the batch; on success every receipt is deleted (a
raising delete is caught with the batch-error log, like a raising
callback); the `finally` block clears both lists and sets
`last_flush_time = now`.  Exceptions inside the flush are consumed by the
inner handler and never reach the outer `except`, so no sleep follows. -/
def sqsCycle {α : Type} (batchSize flushTimeout pollingInterval : Nat)
    (cb : List α → Bool) (s : SqsState α) (c : SqsCycle α) :
    SqsState α × List (Action α) :=
  match c.poll with
  | .err => (s, [.logPollError, .sleep pollingInterval])
  | .ok msgs =>
    let r := pollAppend s msgs
    let s1 := r.1
    if s1.batch.isEmpty = false ∧
        (s1.batch.length ≥ batchSize ∨ c.now - s1.lastFlushTime ≥ flushTimeout) then
      let flushActs :=
        if cb s1.batch then
          let dr := runDeletes (α := α) c.failingDeletes s1.receipts
          if dr.2 then Action.dispatch s1.batch :: dr.1 ++ [Action.logBatchError]
          else Action.dispatch s1.batch :: dr.1
        else [Action.dispatch s1.batch, Action.logBatchError]
      (⟨[], [], c.now⟩, r.2 ++ flushActs)
    else
      (s1, r.2)

/-- The poll loop (line 125): while the shutdown flag is unset, run one
poll iteration; observing the flag set exits at once with no further
actions. -/
def runSqs {α : Type} (batchSize flushTimeout pollingInterval : Nat)
    (cb : List α → Bool) :
    SqsState α → List (SqsCycle α) → SqsState α × List (Action α)
  | s, [] => (s, [])
  | s, c :: cs =>
    if c.shutdown then (s, [])
    else
      let r := sqsCycle batchSize flushTimeout pollingInterval cb s c
      let r2 := runSqs batchSize flushTimeout pollingInterval cb r.1 cs
      (r2.1, r.2 ++ r2.2)

/-! ## Basic lemmas about the embedded operations -/

/-- The decode loop appends exactly the decodable messages, in arrival
order, and the matching receipt handles, and leaves `last_flush_time`
untouched. -/
theorem pollAppend_fst {α : Type} (msgs : List (Option α × Nat)) (s : SqsState α) :
    (pollAppend s msgs).1 =
      ⟨s.batch ++ msgs.filterMap Prod.fst,
       s.receipts ++ msgs.filterMap (fun p => p.1.map fun _ => p.2),
       s.lastFlushTime⟩ := by
  induction msgs generalizing s with
  | nil => simp [pollAppend]
  | cons p rest ih =>
    obtain ⟨b, h⟩ := p
    cases b with
    | none => simp [pollAppend, ih]
    | some m => simp [pollAppend, ih]

/-- The decode loop emits exactly one decode-error log per undecodable
message and nothing else. -/
theorem pollAppend_snd {α : Type} (msgs : List (Option α × Nat)) (s : SqsState α) :
    (pollAppend s msgs).2 =
      List.replicate (msgs.countP fun p => p.1.isNone) Action.logDecodeError := by
  induction msgs generalizing s with
  | nil => simp [pollAppend]
  | cons p rest ih =>
    obtain ⟨b, h⟩ := p
    cases b with
    | none => simp [pollAppend, ih, List.countP_cons, List.replicate_succ]
    | some m => simp [pollAppend, ih, List.countP_cons]

/-- When no delete call raises, every receipt handle is deleted, in
order. -/
theorem runDeletes_nil_failing {α : Type} (rs : List Nat) :
    runDeletes (α := α) [] rs = (rs.map Action.delete, false) := by
  induction rs with
  | nil => rfl
  | cons h rest ih => simp [runDeletes, ih]

/-- Every action emitted by the delete loop is a delete. -/
theorem runDeletes_mem {α : Type} (failing rs : List Nat) :
    ∀ a ∈ (runDeletes (α := α) failing rs).1, ∃ h, a = Action.delete h := by
  induction rs with
  | nil => simp [runDeletes]
  | cons h rest ih =>
    simp only [runDeletes]
    split
    · simp
    · intro a ha
      rcases List.mem_cons.mp ha with h1 | h2
      · exact ⟨h, h1⟩
      · exact ih a h2

/-- A list without dispatch actions filters to nothing under
`Action.isDispatch`. -/
theorem filter_isDispatch_eq_nil {α : Type} (l : List (Action α))
    (h : ∀ a ∈ l, a.isDispatch = false) :
    l.filter Action.isDispatch = [] := by
  induction l with
  | nil => rfl
  | cons a rest ih =>
    rw [List.filter_cons_of_neg, ih]
    · intro b hb
      exact h b (List.mem_cons_of_mem a hb)
    · simp [h a (List.mem_cons_self a rest)]

/-- Acks never look like dispatch calls. -/
theorem filter_isDispatch_map_ack {α : Type} (l : List (α × Nat)) :
    (l.map fun p => (Action.ack p.2 : Action α)).filter Action.isDispatch = [] :=
  filter_isDispatch_eq_nil _ (fun a ha => by
    obtain ⟨p, _, hpe⟩ := List.mem_map.mp ha
    subst hpe
    rfl)

/-- Nacks never look like dispatch calls. -/
theorem filter_isDispatch_map_nack {α : Type} (l : List (α × Nat)) :
    (l.map fun p => (Action.nack p.2 false : Action α)).filter
      Action.isDispatch = [] :=
  filter_isDispatch_eq_nil _ (fun a ha => by
    obtain ⟨p, _, hpe⟩ := List.mem_map.mp ha
    subst hpe
    rfl)

/-- The delete loop emits no dispatch call. -/
theorem filter_isDispatch_runDeletes {α : Type} (failing rs : List Nat) :
    ((runDeletes (α := α) failing rs).1).filter Action.isDispatch = [] :=
  filter_isDispatch_eq_nil _ (fun a ha => by
    obtain ⟨h, he⟩ := runDeletes_mem failing rs a ha
    subst he
    rfl)

/-- The decode loop emits no dispatch call. -/
theorem filter_isDispatch_pollAppend {α : Type} (msgs : List (Option α × Nat))
    (s : SqsState α) :
    ((pollAppend s msgs).2).filter Action.isDispatch = [] :=
  filter_isDispatch_eq_nil _ (fun a ha => by
    rw [pollAppend_snd] at ha
    rw [List.eq_of_mem_replicate ha]
    rfl)

/-- On a flush of the push adapter, the dispatch callback runs exactly
once, on the tag-stripped batch in arrival order. -/
theorem onMessage_filter_dispatch {α : Type} (bs ft : Nat) (cb : List α → Bool)
    (s : PushState α) (m : α) (tag now : Nat)
    (hcond : (s.batch ++ [(m, tag)]).length ≥ bs ∨ now - s.lastFlushTime ≥ ft) :
    (onMessage bs ft cb s ⟨some m, tag, now⟩).2.filter Action.isDispatch =
      [Action.dispatch ((s.batch ++ [(m, tag)]).map Prod.fst)] := by
  simp only [onMessage]
  rw [if_pos hcond]
  by_cases h : cb ((s.batch ++ [(m, tag)]).map Prod.fst)
  · rw [if_pos h]
    simp [List.filter_cons, Action.isDispatch, filter_isDispatch_map_ack]
  · rw [if_neg h]
    simp [List.filter_cons, Action.isDispatch, filter_isDispatch_map_nack]

/-- On a flush of the pull adapter, the dispatch callback runs exactly
once, on the accumulated decoded batch. -/
theorem sqsCycle_filter_dispatch {α : Type} (bs ft pi : Nat)
    (cb : List α → Bool) (s : SqsState α) (sh : Bool)
    (msgs : List (Option α × Nat)) (now : Nat) (fd : List Nat)
    (hcond : (pollAppend s msgs).1.batch.isEmpty = false ∧
      ((pollAppend s msgs).1.batch.length ≥ bs ∨
        now - (pollAppend s msgs).1.lastFlushTime ≥ ft)) :
    (sqsCycle bs ft pi cb s ⟨sh, .ok msgs, now, fd⟩).2.filter Action.isDispatch =
      [Action.dispatch (pollAppend s msgs).1.batch] := by
  simp only [sqsCycle]
  rw [if_pos hcond]
  by_cases h : cb (pollAppend s msgs).1.batch
  · rw [if_pos h]
    by_cases hdr : (runDeletes (α := α) fd (pollAppend s msgs).1.receipts).2
    · rw [if_pos hdr]
      simp [List.filter_append, List.filter_cons, Action.isDispatch,
        filter_isDispatch_runDeletes, filter_isDispatch_pollAppend]
    · rw [if_neg hdr]
      simp [List.filter_append, List.filter_cons, Action.isDispatch,
        filter_isDispatch_runDeletes, filter_isDispatch_pollAppend]
  · rw [if_neg h]
    simp [List.filter_append, List.filter_cons, Action.isDispatch,
      filter_isDispatch_pollAppend]

/-! ## Claim theorems -/

/-- C1: after every flush, in both the push adapter (lines 88–90) and the
pull adapter (lines 153–156), the pending batch is empty (for the pull
adapter the receipt list too) and `last_flush_time` is reset to the `now`
sampled in that iteration, whether the dispatch callback returned normally
or raised. -/
theorem flush_clears_batch_and_resets_time {α : Type} (bs ft pi : Nat)
    (cb : List α → Bool) :
    (∀ (s : PushState α) (m : α) (tag now : Nat),
        (s.batch ++ [(m, tag)]).length ≥ bs ∨ now - s.lastFlushTime ≥ ft →
        (onMessage bs ft cb s ⟨some m, tag, now⟩).1 = ⟨[], now⟩) ∧
    (∀ (s : SqsState α) (sh : Bool) (msgs : List (Option α × Nat)) (now : Nat)
        (fd : List Nat),
        ((pollAppend s msgs).1.batch.isEmpty = false ∧
          ((pollAppend s msgs).1.batch.length ≥ bs ∨
            now - (pollAppend s msgs).1.lastFlushTime ≥ ft)) →
        (sqsCycle bs ft pi cb s ⟨sh, .ok msgs, now, fd⟩).1 = ⟨[], [], now⟩) := by
  constructor
  · intro s m tag now hcond
    simp only [onMessage]
    rw [if_pos hcond]
    by_cases h : cb ((s.batch ++ [(m, tag)]).map Prod.fst)
    · rw [if_pos h]
    · rw [if_neg h]
  · intro s sh msgs now fd hcond
    simp only [sqsCycle]
    rw [if_pos hcond]

/-- Witness for C1: a full batch flushed on a succeeding callback in the
push adapter, and a full batch flushed on a raising callback in the pull
adapter, both leave the state cleared with `last_flush_time = 5`. -/
theorem flush_clears_batch_and_resets_time_witness :
    (onMessage 2 60 (fun _ => true) (⟨[(10, 1)], 0⟩ : PushState Nat)
        ⟨some 20, 2, 5⟩).1 = ⟨[], 5⟩ ∧
    (sqsCycle 2 60 7 (fun _ => false) (⟨[10], [101], 0⟩ : SqsState Nat)
        ⟨false, .ok [(some 20, 102)], 5, []⟩).1 = ⟨[], [], 5⟩ :=
  ⟨(flush_clears_batch_and_resets_time 2 60 7 (fun _ => true)).1
      ⟨[(10, 1)], 0⟩ 20 2 5 (by decide),
   (flush_clears_batch_and_resets_time 2 60 7 (fun _ => false)).2
      ⟨[10], [101], 0⟩ false [(some 20, 102)] 5 [] (by decide)⟩

/-- C3: a message whose body fails to decode never reaches the batch: the
push adapter logs and nacks it immediately without requeue, returning with
its state untouched (lines 68–74), and the pull adapter logs and drops it,
the batch receiving exactly the successfully decoded messages in arrival
order (lines 135–141), so later valid messages append normally. -/
theorem decode_failure_settled_and_excluded {α : Type} (bs ft : Nat)
    (cb : List α → Bool) :
    (∀ (s : PushState α) (tag now : Nat),
        onMessage bs ft cb s ⟨none, tag, now⟩ =
          (s, [Action.logDecodeError, Action.nack tag false])) ∧
    (∀ (s : SqsState α) (msgs : List (Option α × Nat)),
        (pollAppend s msgs).1.batch = s.batch ++ msgs.filterMap Prod.fst ∧
        (pollAppend s msgs).2 =
          List.replicate (msgs.countP fun p => p.1.isNone)
            Action.logDecodeError) :=
  ⟨fun _ _ _ => rfl,
   fun s msgs => ⟨by rw [pollAppend_fst], pollAppend_snd msgs s⟩⟩

/-- C8: the shutdown flag observed set at the top of the consume loop
while the pending batch is empty terminates both adapters at once: no
dispatch and no settlement action is emitted and the state is returned as
is (lines 96, 125). -/
theorem shutdown_with_empty_batch_terminates {α : Type} (bs ft pi : Nat)
    (cb : List α → Bool) :
    (∀ (s : PushState α) (c : PushCycle α) (cs : List (PushCycle α)),
        c.shutdown = true → s.batch = [] →
        runPush bs ft cb s (c :: cs) = (s, [])) ∧
    (∀ (s : SqsState α) (c : SqsCycle α) (cs : List (SqsCycle α)),
        c.shutdown = true → s.batch = [] →
        runSqs bs ft pi cb s (c :: cs) = (s, [])) := by
  constructor
  · intro s c cs hsd _
    simp [runPush, hsd]
  · intro s c cs hsd _
    simp [runSqs, hsd]

/-- Witness for C8: both adapters, flag set, empty batch, one pending
cycle of input that is never processed. -/
theorem shutdown_with_empty_batch_terminates_witness :
    runPush 2 60 (fun _ => true) (⟨[], 0⟩ : PushState Nat)
        [⟨true, [⟨some 10, 1, 0⟩]⟩] = (⟨[], 0⟩, []) ∧
    runSqs 2 60 7 (fun _ => true) (⟨[], [], 0⟩ : SqsState Nat)
        [⟨true, .ok [(some 10, 101)], 0, []⟩] = (⟨[], [], 0⟩, []) :=
  ⟨(shutdown_with_empty_batch_terminates 2 60 7 (fun _ => true)).1 _ _ _ rfl rfl,
   (shutdown_with_empty_batch_terminates 2 60 7 (fun _ => true)).2 _ _ _ rfl rfl⟩

/-- C10: the shutdown flag observed set while messages are pending makes
both loops exit immediately: the pending batch is returned untouched —
those messages are never dispatched, acked, nacked or deleted and no
drain flush runs — leaving them to the transport's native redelivery. -/
theorem shutdown_abandons_pending_batch {α : Type} (bs ft pi : Nat)
    (cb : List α → Bool) :
    (∀ (s : PushState α) (c : PushCycle α) (cs : List (PushCycle α)),
        c.shutdown = true → s.batch ≠ [] →
        runPush bs ft cb s (c :: cs) = (s, [])) ∧
    (∀ (s : SqsState α) (c : SqsCycle α) (cs : List (SqsCycle α)),
        c.shutdown = true → s.batch ≠ [] →
        runSqs bs ft pi cb s (c :: cs) = (s, [])) := by
  constructor
  · intro s c cs hsd _
    simp [runPush, hsd]
  · intro s c cs hsd _
    simp [runSqs, hsd]

/-- Witness for C10: both adapters, flag set, one pending message, the
run returns the untouched state and an empty action trace. -/
theorem shutdown_abandons_pending_batch_witness :
    runPush 2 60 (fun _ => true) (⟨[(10, 1)], 0⟩ : PushState Nat)
        [⟨true, []⟩] = (⟨[(10, 1)], 0⟩, []) ∧
    runSqs 2 60 7 (fun _ => true) (⟨[10], [101], 0⟩ : SqsState Nat)
        [⟨true, .ok [], 3, []⟩] = (⟨[10], [101], 0⟩, []) :=
  ⟨(shutdown_abandons_pending_batch 2 60 7 (fun _ => true)).1 _ _ _ rfl
      (by decide),
   (shutdown_abandons_pending_batch 2 60 7 (fun _ => true)).2 _ _ _ rfl
      (by decide)⟩

/-- C2: settlement after a flush. Push adapter: a callback that returns
normally is followed by a per-message ack of every delivery tag of the
batch; a raising callback by a per-message nack with `requeue=False`
(lines 78–87). Pull adapter: a callback that returns normally is followed
by a delete of every accumulated receipt handle (here with no delete call
raising); a raising callback settles nothing — no ack, nack or delete is
emitted, so the messages stay on the queue (lines 146–152). -/
theorem flush_settlement {α : Type} (bs ft pi : Nat) (cb : List α → Bool) :
    (∀ (s : PushState α) (m : α) (tag now : Nat),
        (s.batch ++ [(m, tag)]).length ≥ bs ∨ now - s.lastFlushTime ≥ ft →
        cb ((s.batch ++ [(m, tag)]).map Prod.fst) = true →
        (onMessage bs ft cb s ⟨some m, tag, now⟩).2 =
          Action.dispatch ((s.batch ++ [(m, tag)]).map Prod.fst) ::
            (s.batch ++ [(m, tag)]).map (fun p => Action.ack p.2)) ∧
    (∀ (s : PushState α) (m : α) (tag now : Nat),
        (s.batch ++ [(m, tag)]).length ≥ bs ∨ now - s.lastFlushTime ≥ ft →
        cb ((s.batch ++ [(m, tag)]).map Prod.fst) = false →
        (onMessage bs ft cb s ⟨some m, tag, now⟩).2 =
          Action.dispatch ((s.batch ++ [(m, tag)]).map Prod.fst) ::
            Action.logBatchError ::
            (s.batch ++ [(m, tag)]).map (fun p => Action.nack p.2 false)) ∧
    (∀ (s : SqsState α) (sh : Bool) (msgs : List (Option α × Nat)) (now : Nat),
        ((pollAppend s msgs).1.batch.isEmpty = false ∧
          ((pollAppend s msgs).1.batch.length ≥ bs ∨
            now - (pollAppend s msgs).1.lastFlushTime ≥ ft)) →
        cb (pollAppend s msgs).1.batch = true →
        (sqsCycle bs ft pi cb s ⟨sh, .ok msgs, now, []⟩).2 =
          (pollAppend s msgs).2 ++
            Action.dispatch (pollAppend s msgs).1.batch ::
              (pollAppend s msgs).1.receipts.map Action.delete) ∧
    (∀ (s : SqsState α) (sh : Bool) (msgs : List (Option α × Nat)) (now : Nat)
        (fd : List Nat),
        ((pollAppend s msgs).1.batch.isEmpty = false ∧
          ((pollAppend s msgs).1.batch.length ≥ bs ∨
            now - (pollAppend s msgs).1.lastFlushTime ≥ ft)) →
        cb (pollAppend s msgs).1.batch = false →
        ∀ a ∈ (sqsCycle bs ft pi cb s ⟨sh, .ok msgs, now, fd⟩).2,
          a.isSettle = false) := by
  refine ⟨?_, ?_, ?_, ?_⟩
  · intro s m tag now hcond hcb
    simp only [onMessage]
    rw [if_pos hcond, if_pos hcb]
  · intro s m tag now hcond hcb
    simp only [onMessage]
    rw [if_pos hcond, if_neg (by rw [hcb]; simp)]
  · intro s sh msgs now hcond hcb
    simp only [sqsCycle]
    rw [if_pos hcond, if_pos hcb, runDeletes_nil_failing]
    simp
  · intro s sh msgs now fd hcond hcb
    simp only [sqsCycle]
    rw [if_pos hcond, if_neg (by simp [hcb])]
    intro a ha
    rcases List.mem_append.mp ha with h1 | h2
    · rw [pollAppend_snd] at h1
      rw [List.eq_of_mem_replicate h1]
      rfl
    · rcases List.mem_cons.mp h2 with h3 | h3
      · rw [h3]
        rfl
      · rw [List.mem_singleton.mp h3]
        rfl

/-- Witness for C2: a two-message batch in each adapter, flushed under a
succeeding and under a raising callback. -/
theorem flush_settlement_witness :
    (onMessage 2 60 (fun _ => true) (⟨[(10, 1)], 0⟩ : PushState Nat)
        ⟨some 20, 2, 5⟩).2 =
      [Action.dispatch [10, 20], Action.ack 1, Action.ack 2] ∧
    (onMessage 2 60 (fun _ => false) (⟨[(10, 1)], 0⟩ : PushState Nat)
        ⟨some 20, 2, 5⟩).2 =
      [Action.dispatch [10, 20], Action.logBatchError,
        Action.nack 1 false, Action.nack 2 false] ∧
    (sqsCycle 2 60 7 (fun _ => true) (⟨[10], [101], 0⟩ : SqsState Nat)
        ⟨false, .ok [(some 20, 102)], 5, []⟩).2 =
      [Action.dispatch [10, 20], Action.delete 101, Action.delete 102] ∧
    (Action.dispatch ([10, 20] : List Nat)).isSettle = false :=
  ⟨(flush_settlement 2 60 7 (fun _ => true)).1 ⟨[(10, 1)], 0⟩ 20 2 5
      (by decide) rfl,
   (flush_settlement 2 60 7 (fun _ => false)).2.1 ⟨[(10, 1)], 0⟩ 20 2 5
      (by decide) rfl,
   (flush_settlement 2 60 7 (fun _ => true)).2.2.1 ⟨[10], [101], 0⟩ false
      [(some 20, 102)] 5 (by decide) rfl,
   (flush_settlement 2 60 7 (fun _ => false)).2.2.2 ⟨[10], [101], 0⟩ false
      [(some 20, 102)] 5 [] (by decide) rfl
      (Action.dispatch [10, 20]) (by decide)⟩

/-- C6: the payload handed to the dispatch callback is exactly the
ordered sequence of successfully decoded messages of the current batch,
in arrival order, with delivery tags and receipt handles stripped, and
the callback runs exactly once per flush (lines 78–83, 146–147). -/
theorem dispatch_payload_is_decoded_batch {α : Type} (bs ft pi : Nat)
    (cb : List α → Bool) :
    (∀ (s : PushState α) (m : α) (tag now : Nat),
        (s.batch ++ [(m, tag)]).length ≥ bs ∨ now - s.lastFlushTime ≥ ft →
        (onMessage bs ft cb s ⟨some m, tag, now⟩).2.filter Action.isDispatch =
          [Action.dispatch ((s.batch ++ [(m, tag)]).map Prod.fst)]) ∧
    (∀ (s : SqsState α) (sh : Bool) (msgs : List (Option α × Nat)) (now : Nat)
        (fd : List Nat),
        ((pollAppend s msgs).1.batch.isEmpty = false ∧
          ((pollAppend s msgs).1.batch.length ≥ bs ∨
            now - (pollAppend s msgs).1.lastFlushTime ≥ ft)) →
        (sqsCycle bs ft pi cb s ⟨sh, .ok msgs, now, fd⟩).2.filter
            Action.isDispatch =
          [Action.dispatch (s.batch ++ msgs.filterMap Prod.fst)]) :=
  ⟨fun s m tag now h => onMessage_filter_dispatch bs ft cb s m tag now h,
   fun s sh msgs now fd h => by
    rw [sqsCycle_filter_dispatch bs ft pi cb s sh msgs now fd h, pollAppend_fst]⟩

/-- Witness for C6, the spec's own scenario: batch_size 3, three valid
messages arriving in quick succession, one dispatch with exactly those
three, in arrival order. -/
theorem dispatch_payload_is_decoded_batch_witness :
    (onMessage 3 60 (fun _ => true) (⟨[(10, 1), (20, 2)], 0⟩ : PushState Nat)
        ⟨some 30, 3, 1⟩).2.filter Action.isDispatch =
      [Action.dispatch [10, 20, 30]] ∧
    (sqsCycle 3 60 7 (fun _ => true) (⟨[], [], 0⟩ : SqsState Nat)
        ⟨false, .ok [(some 10, 101), (some 20, 102), (some 30, 103)], 1,
          []⟩).2.filter Action.isDispatch =
      [Action.dispatch [10, 20, 30]] :=
  ⟨(dispatch_payload_is_decoded_batch 3 60 7 (fun _ => true)).1
      ⟨[(10, 1), (20, 2)], 0⟩ 30 3 1 (by decide),
   (dispatch_payload_is_decoded_batch 3 60 7 (fun _ => true)).2
      ⟨[], [], 0⟩ false [(some 10, 101), (some 20, 102), (some 30, 103)] 1 []
      (by decide)⟩

/-- C4 is false for the push adapter: with batch_size 5 and flush_timeout
60, two messages arriving at times 0 and 1 followed by idle loop
iterations covering more than 60 seconds never trigger a dispatch,
because `on_message` — the only place the flush condition is evaluated —
does not run without an arrival; and when a third message does arrive, at
time 62, the single dispatch carries all three messages, not the two that
were pending. -/
theorem timeout_flush_push_counterexample :
    (runPush 5 60 (fun _ => true) (⟨[], 0⟩ : PushState Nat)
        [⟨false, [⟨some 10, 1, 0⟩, ⟨some 20, 2, 1⟩]⟩, ⟨false, []⟩,
          ⟨false, []⟩]).2.countP Action.isDispatch = 0 ∧
    (runPush 5 60 (fun _ => true) (⟨[], 0⟩ : PushState Nat)
        [⟨false, [⟨some 10, 1, 0⟩, ⟨some 20, 2, 1⟩]⟩,
          ⟨false, [⟨some 30, 3, 62⟩]⟩]).2.filter Action.isDispatch =
      [Action.dispatch [10, 20, 30]] := by
  decide

/-- C4 amended: the pull adapter behaves as claimed — with a non-empty
pending batch, a poll cycle that returns no messages at a time at least
flush_timeout past last_flush_time flushes, dispatching exactly the
pending messages once.  The push adapter evaluates the flush condition
only when a further message arrives: that arrival then triggers a single
dispatch of the pending messages plus the new arrival. -/
theorem timeout_flush_at_next_evaluation {α : Type} (bs ft pi : Nat)
    (cb : List α → Bool) :
    (∀ (s : SqsState α) (sh : Bool) (now : Nat) (fd : List Nat),
        s.batch.isEmpty = false → now - s.lastFlushTime ≥ ft →
        (sqsCycle bs ft pi cb s ⟨sh, .ok [], now, fd⟩).2.filter
            Action.isDispatch =
          [Action.dispatch s.batch]) ∧
    (∀ (s : PushState α) (m : α) (tag now : Nat),
        now - s.lastFlushTime ≥ ft →
        (onMessage bs ft cb s ⟨some m, tag, now⟩).2.filter Action.isDispatch =
          [Action.dispatch ((s.batch ++ [(m, tag)]).map Prod.fst)]) := by
  constructor
  · intro s sh now fd hne hto
    exact sqsCycle_filter_dispatch bs ft pi cb s sh [] now fd ⟨hne, Or.inr hto⟩
  · intro s m tag now hto
    exact onMessage_filter_dispatch bs ft cb s m tag now (Or.inr hto)

/-- Witness for the amended C4, the spec's scenario on the pull adapter
(batch_size 5, two pending messages, an empty poll 61 seconds later
dispatches exactly those two) and the push variant at a third arrival. -/
theorem timeout_flush_at_next_evaluation_witness :
    (sqsCycle 5 60 7 (fun _ => true) (⟨[10, 20], [101, 102], 0⟩ : SqsState Nat)
        ⟨false, .ok [], 61, []⟩).2.filter Action.isDispatch =
      [Action.dispatch [10, 20]] ∧
    (onMessage 5 60 (fun _ => true) (⟨[(10, 1), (20, 2)], 0⟩ : PushState Nat)
        ⟨some 30, 3, 62⟩).2.filter Action.isDispatch =
      [Action.dispatch [10, 20, 30]] :=
  ⟨(timeout_flush_at_next_evaluation 5 60 7 (fun _ => true)).1
      ⟨[10, 20], [101, 102], 0⟩ false 61 [] (by decide) (by decide),
   (timeout_flush_at_next_evaluation 5 60 7 (fun _ => true)).2
      ⟨[(10, 1), (20, 2)], 0⟩ 30 3 62 (by decide)⟩

/-- A list whose `isEmpty` test is `false` is not nil. -/
theorem ne_nil_of_isEmpty_false {α : Type} {l : List α}
    (h : l.isEmpty = false) : l ≠ [] := by
  cases l with
  | nil => simp at h
  | cons a t => simp

/-- Any dispatch the push handler emits carries the just-extended batch,
which holds at least the triggering message. -/
theorem onMessage_dispatch_ne_nil {α : Type} (bs ft : Nat) (cb : List α → Bool)
    (s : PushState α) (d : Delivery α) (p : List α)
    (hp : Action.dispatch p ∈ (onMessage bs ft cb s d).2) : p ≠ [] := by
  obtain ⟨body, tag, now⟩ := d
  cases body with
  | none => simp [onMessage] at hp
  | some m =>
    by_cases hc : (s.batch ++ [(m, tag)]).length ≥ bs ∨ now - s.lastFlushTime ≥ ft
    · have hmem : Action.dispatch p ∈
          (onMessage bs ft cb s ⟨some m, tag, now⟩).2.filter Action.isDispatch :=
        List.mem_filter.mpr ⟨hp, rfl⟩
      rw [onMessage_filter_dispatch bs ft cb s m tag now hc] at hmem
      injection List.mem_singleton.mp hmem with h2
      rw [h2]
      simp
    · simp only [onMessage] at hp
      rw [if_neg hc] at hp
      exact absurd hp (List.not_mem_nil _)

/-- Any dispatch emitted while processing a delivery window has a
non-empty payload. -/
theorem processDeliveries_dispatch_ne_nil {α : Type} (bs ft : Nat)
    (cb : List α → Bool) (ds : List (Delivery α)) :
    ∀ (s : PushState α) (p : List α),
      Action.dispatch p ∈ (processDeliveries bs ft cb s ds).2 → p ≠ [] := by
  induction ds with
  | nil => intro s p hp; exact absurd hp (List.not_mem_nil _)
  | cons d rest ih =>
    intro s p hp
    simp only [processDeliveries] at hp
    rcases List.mem_append.mp hp with h | h
    · exact onMessage_dispatch_ne_nil bs ft cb s d p h
    · exact ih _ p h

/-- Any dispatch emitted by a push-adapter run has a non-empty payload. -/
theorem runPush_dispatch_ne_nil {α : Type} (bs ft : Nat) (cb : List α → Bool)
    (cycles : List (PushCycle α)) :
    ∀ (s : PushState α) (p : List α),
      Action.dispatch p ∈ (runPush bs ft cb s cycles).2 → p ≠ [] := by
  induction cycles with
  | nil => intro s p hp; exact absurd hp (List.not_mem_nil _)
  | cons c cs ih =>
    intro s p hp
    simp only [runPush] at hp
    by_cases hsd : c.shutdown
    · rw [if_pos hsd] at hp
      exact absurd hp (List.not_mem_nil _)
    · rw [if_neg hsd] at hp
      rcases List.mem_append.mp hp with h | h
      · exact processDeliveries_dispatch_ne_nil bs ft cb c.deliveries s p h
      · exact ih _ p h

/-- Any dispatch emitted by a poll iteration carries the accumulated
batch, guarded non-empty by line 143. -/
theorem sqsCycle_dispatch_ne_nil {α : Type} (bs ft pi : Nat)
    (cb : List α → Bool) (s : SqsState α) (c : SqsCycle α) (p : List α)
    (hp : Action.dispatch p ∈ (sqsCycle bs ft pi cb s c).2) : p ≠ [] := by
  obtain ⟨sh, poll, now, fd⟩ := c
  cases poll with
  | err => simp [sqsCycle] at hp
  | ok msgs =>
    by_cases hc : (pollAppend s msgs).1.batch.isEmpty = false ∧
        ((pollAppend s msgs).1.batch.length ≥ bs ∨
          now - (pollAppend s msgs).1.lastFlushTime ≥ ft)
    · have hmem : Action.dispatch p ∈
          (sqsCycle bs ft pi cb s ⟨sh, .ok msgs, now, fd⟩).2.filter
            Action.isDispatch :=
        List.mem_filter.mpr ⟨hp, rfl⟩
      rw [sqsCycle_filter_dispatch bs ft pi cb s sh msgs now fd hc] at hmem
      injection List.mem_singleton.mp hmem with h2
      rw [h2]
      exact ne_nil_of_isEmpty_false hc.1
    · simp only [sqsCycle] at hp
      rw [if_neg hc, pollAppend_snd] at hp
      exact absurd (List.eq_of_mem_replicate hp) (by simp)

/-- Any dispatch emitted by a pull-adapter run has a non-empty payload. -/
theorem runSqs_dispatch_ne_nil {α : Type} (bs ft pi : Nat)
    (cb : List α → Bool) (cycles : List (SqsCycle α)) :
    ∀ (s : SqsState α) (p : List α),
      Action.dispatch p ∈ (runSqs bs ft pi cb s cycles).2 → p ≠ [] := by
  induction cycles with
  | nil => intro s p hp; exact absurd hp (List.not_mem_nil _)
  | cons c cs ih =>
    intro s p hp
    simp only [runSqs] at hp
    by_cases hsd : c.shutdown
    · rw [if_pos hsd] at hp
      exact absurd hp (List.not_mem_nil _)
    · rw [if_neg hsd] at hp
      rcases List.mem_append.mp hp with h | h
      · exact sqsCycle_dispatch_ne_nil bs ft pi cb s c p h
      · exact ih _ p h

/-- C9: in no run of either adapter is the dispatch callback ever invoked
with an empty batch — the push adapter evaluates the flush condition only
right after an append (lines 76–77), the pull adapter guards its flush
with a non-emptiness check (line 143). -/
theorem dispatch_never_called_with_empty_batch {α : Type} (bs ft pi : Nat)
    (cb : List α → Bool) :
    (∀ (s : PushState α) (cycles : List (PushCycle α)) (p : List α),
        Action.dispatch p ∈ (runPush bs ft cb s cycles).2 → p ≠ []) ∧
    (∀ (s : SqsState α) (cycles : List (SqsCycle α)) (p : List α),
        Action.dispatch p ∈ (runSqs bs ft pi cb s cycles).2 → p ≠ []) :=
  ⟨fun s cycles p hp => runPush_dispatch_ne_nil bs ft cb cycles s p hp,
   fun s cycles p hp => runSqs_dispatch_ne_nil bs ft pi cb cycles s p hp⟩

/-- Witness for C9 on concrete runs of both adapters. -/
theorem dispatch_never_called_with_empty_batch_witness :
    ([10, 20] : List Nat) ≠ [] ∧ ([30] : List Nat) ≠ [] :=
  ⟨(dispatch_never_called_with_empty_batch 2 60 7 (fun _ => true)).1
      ⟨[], 0⟩ [⟨false, [⟨some 10, 1, 0⟩, ⟨some 20, 2, 1⟩]⟩] [10, 20]
      (by decide),
   (dispatch_never_called_with_empty_batch 1 60 7 (fun _ => true)).2
      ⟨[], [], 0⟩ [⟨false, .ok [(some 30, 101)], 1, []⟩] [30] (by decide)⟩

/-- A list that fails the `isEmpty = false` test is nil. -/
theorem eq_nil_of_not_isEmpty_false {α : Type} {l : List α}
    (h : ¬ l.isEmpty = false) : l = [] := by
  cases l with
  | nil => rfl
  | cons a t => exact absurd rfl h

/-- The push handler keeps the pending batch strictly below the cap
between invocations and never dispatches more than `batch_size`
messages. -/
theorem onMessage_bound {α : Type} (bs ft : Nat) (cb : List α → Bool)
    (s : PushState α) (d : Delivery α) (hbs : 1 ≤ bs)
    (hlt : s.batch.length < bs) :
    (onMessage bs ft cb s d).1.batch.length < bs ∧
      ∀ p, Action.dispatch p ∈ (onMessage bs ft cb s d).2 → p.length ≤ bs := by
  obtain ⟨body, tag, now⟩ := d
  cases body with
  | none =>
    refine ⟨hlt, fun p hp => ?_⟩
    simp [onMessage] at hp
  | some m =>
    by_cases hc : (s.batch ++ [(m, tag)]).length ≥ bs ∨ now - s.lastFlushTime ≥ ft
    · constructor
      · simp only [onMessage]
        rw [if_pos hc]
        by_cases hcb : cb ((s.batch ++ [(m, tag)]).map Prod.fst)
        · rw [if_pos hcb]
          exact hbs
        · rw [if_neg hcb]
          exact hbs
      · intro p hp
        have hmem : Action.dispatch p ∈
            (onMessage bs ft cb s ⟨some m, tag, now⟩).2.filter
              Action.isDispatch :=
          List.mem_filter.mpr ⟨hp, rfl⟩
        rw [onMessage_filter_dispatch bs ft cb s m tag now hc] at hmem
        injection List.mem_singleton.mp hmem with h2
        rw [h2]
        have hlen : ((s.batch ++ [(m, tag)]).map Prod.fst).length =
            s.batch.length + 1 := by simp
        rw [hlen]
        omega
    · constructor
      · simp only [onMessage]
        rw [if_neg hc]
        have h1 : ¬ (s.batch ++ [(m, tag)]).length ≥ bs := fun h =>
          hc (Or.inl h)
        exact Nat.lt_of_not_le h1
      · intro p hp
        simp only [onMessage] at hp
        rw [if_neg hc] at hp
        exact absurd hp (List.not_mem_nil _)

/-- The delivery-window loop preserves the strict cap and the dispatch
bound. -/
theorem processDeliveries_bound {α : Type} (bs ft : Nat) (cb : List α → Bool)
    (ds : List (Delivery α)) (hbs : 1 ≤ bs) :
    ∀ (s : PushState α), s.batch.length < bs →
      (processDeliveries bs ft cb s ds).1.batch.length < bs ∧
        ∀ p, Action.dispatch p ∈ (processDeliveries bs ft cb s ds).2 →
          p.length ≤ bs := by
  induction ds with
  | nil =>
    intro s hlt
    exact ⟨hlt, fun p hp => absurd hp (List.not_mem_nil _)⟩
  | cons d rest ih =>
    intro s hlt
    obtain ⟨h1, h2⟩ := onMessage_bound bs ft cb s d hbs hlt
    obtain ⟨h3, h4⟩ := ih (onMessage bs ft cb s d).1 h1
    refine ⟨h3, fun p hp => ?_⟩
    simp only [processDeliveries] at hp
    rcases List.mem_append.mp hp with h | h
    · exact h2 p h
    · exact h4 p h

/-- The push consume loop, started below the cap, only dispatches
payloads of at most `batch_size` messages. -/
theorem runPush_bound {α : Type} (bs ft : Nat) (cb : List α → Bool)
    (cycles : List (PushCycle α)) (hbs : 1 ≤ bs) :
    ∀ (s : PushState α), s.batch.length < bs →
      ∀ p, Action.dispatch p ∈ (runPush bs ft cb s cycles).2 →
        p.length ≤ bs := by
  induction cycles with
  | nil => intro s _ p hp; exact absurd hp (List.not_mem_nil _)
  | cons c cs ih =>
    intro s hlt p hp
    simp only [runPush] at hp
    by_cases hsd : c.shutdown
    · rw [if_pos hsd] at hp
      exact absurd hp (List.not_mem_nil _)
    · rw [if_neg hsd] at hp
      obtain ⟨h1, h2⟩ := processDeliveries_bound bs ft cb c.deliveries hbs s hlt
      rcases List.mem_append.mp hp with h | h
      · exact h2 p h
      · exact ih _ h1 p h

/-- One poll iteration keeps the batch below the cap at the loop
boundary and dispatches at most `2·batch_size − 1` messages: at most
`batch_size − 1` left over from earlier polls plus one poll of at most
`batch_size` messages. -/
theorem sqsCycle_bound {α : Type} (bs ft pi : Nat) (cb : List α → Bool)
    (s : SqsState α) (c : SqsCycle α) (hbs : 1 ≤ bs)
    (hlt : s.batch.length < bs)
    (hpoll : ∀ msgs, c.poll = .ok msgs → msgs.length ≤ bs) :
    (sqsCycle bs ft pi cb s c).1.batch.length < bs ∧
      ∀ p, Action.dispatch p ∈ (sqsCycle bs ft pi cb s c).2 →
        p.length ≤ 2 * bs - 1 := by
  obtain ⟨sh, poll, now, fd⟩ := c
  cases poll with
  | err =>
    refine ⟨hlt, fun p hp => ?_⟩
    simp [sqsCycle] at hp
  | ok msgs =>
    have hm : msgs.length ≤ bs := hpoll msgs rfl
    have hs1 : (pollAppend s msgs).1.batch.length ≤
        s.batch.length + msgs.length := by
      rw [pollAppend_fst]
      simp only [List.length_append]
      exact Nat.add_le_add_left (List.length_filterMap_le _ _) _
    by_cases hc : (pollAppend s msgs).1.batch.isEmpty = false ∧
        ((pollAppend s msgs).1.batch.length ≥ bs ∨
          now - (pollAppend s msgs).1.lastFlushTime ≥ ft)
    · constructor
      · simp only [sqsCycle]
        rw [if_pos hc]
        exact hbs
      · intro p hp
        have hmem : Action.dispatch p ∈
            (sqsCycle bs ft pi cb s ⟨sh, .ok msgs, now, fd⟩).2.filter
              Action.isDispatch :=
          List.mem_filter.mpr ⟨hp, rfl⟩
        rw [sqsCycle_filter_dispatch bs ft pi cb s sh msgs now fd hc] at hmem
        injection List.mem_singleton.mp hmem with h2
        rw [h2]
        omega
    · constructor
      · simp only [sqsCycle]
        rw [if_neg hc]
        by_cases he : (pollAppend s msgs).1.batch.isEmpty = false
        · have h1 : ¬ ((pollAppend s msgs).1.batch.length ≥ bs ∨
              now - (pollAppend s msgs).1.lastFlushTime ≥ ft) := fun h =>
            hc ⟨he, h⟩
          have h2 : ¬ (pollAppend s msgs).1.batch.length ≥ bs := fun h =>
            h1 (Or.inl h)
          exact Nat.lt_of_not_le h2
        · rw [eq_nil_of_not_isEmpty_false he]
          exact hbs
      · intro p hp
        simp only [sqsCycle] at hp
        rw [if_neg hc, pollAppend_snd] at hp
        exact absurd (List.eq_of_mem_replicate hp) (by simp)

/-- The pull loop, started below the cap and polling at most
`batch_size` messages per cycle, only dispatches payloads of at most
`2·batch_size − 1` messages. -/
theorem runSqs_bound {α : Type} (bs ft pi : Nat) (cb : List α → Bool)
    (cycles : List (SqsCycle α)) (hbs : 1 ≤ bs) :
    ∀ (s : SqsState α), s.batch.length < bs →
      (∀ c ∈ cycles, ∀ msgs, c.poll = .ok msgs → msgs.length ≤ bs) →
      ∀ p, Action.dispatch p ∈ (runSqs bs ft pi cb s cycles).2 →
        p.length ≤ 2 * bs - 1 := by
  induction cycles with
  | nil => intro s _ _ p hp; exact absurd hp (List.not_mem_nil _)
  | cons c cs ih =>
    intro s hlt hpoll p hp
    simp only [runSqs] at hp
    by_cases hsd : c.shutdown
    · rw [if_pos hsd] at hp
      exact absurd hp (List.not_mem_nil _)
    · rw [if_neg hsd] at hp
      obtain ⟨h1, h2⟩ := sqsCycle_bound bs ft pi cb s c hbs hlt
        (hpoll c (List.mem_cons_self c cs))
      rcases List.mem_append.mp hp with h | h
      · exact h2 p h
      · exact ih _ h1
          (fun c' hc' msgs h' => hpoll c' (List.mem_cons_of_mem c hc') msgs h')
          p h

/-- C5 is false for the pull adapter: with batch_size 5, a poll of 4
messages (no flush: under the cap and under the timeout) followed by a
poll of 5 messages leaves 9 messages pending at the moment the flush
condition is evaluated true and acted upon, and the flush dispatches all
9 — exceeding batch_size. -/
theorem batch_cap_pull_counterexample :
    Action.dispatch [1, 2, 3, 4, 5, 6, 7, 8, 9] ∈
      (runSqs 5 60 7 (fun _ => true) (⟨[], [], 0⟩ : SqsState Nat)
        [⟨false, .ok [(some 1, 11), (some 2, 12), (some 3, 13), (some 4, 14)],
          1, []⟩,
         ⟨false, .ok [(some 5, 15), (some 6, 16), (some 7, 17), (some 8, 18),
          (some 9, 19)], 2, []⟩]).2 ∧
    5 < ([1, 2, 3, 4, 5, 6, 7, 8, 9] : List Nat).length := by
  decide

/-- C5 amended: the push adapter obeys the cap — every dispatched payload
holds at most `batch_size` messages, since the flush condition is checked
after each single append.  The pull adapter does not: leftovers below the
cap survive a poll cycle and the next poll may add up to `batch_size`
more before the condition is evaluated, so a dispatched payload is only
bounded by `2·batch_size − 1` (each poll returning at most `batch_size`
messages). -/
theorem flush_payload_bounds {α : Type} (bs ft pi : Nat) (cb : List α → Bool)
    (t0 : Nat) (hbs : 1 ≤ bs) :
    (∀ (cycles : List (PushCycle α)) (p : List α),
        Action.dispatch p ∈ (runPush bs ft cb ⟨[], t0⟩ cycles).2 →
        p.length ≤ bs) ∧
    (∀ (cycles : List (SqsCycle α)) (p : List α),
        (∀ c ∈ cycles, ∀ msgs, c.poll = .ok msgs → msgs.length ≤ bs) →
        Action.dispatch p ∈ (runSqs bs ft pi cb ⟨[], [], t0⟩ cycles).2 →
        p.length ≤ 2 * bs - 1) :=
  ⟨fun cycles p hp => runPush_bound bs ft cb cycles hbs ⟨[], t0⟩ hbs p hp,
   fun cycles p hpoll hp =>
    runSqs_bound bs ft pi cb cycles hbs ⟨[], [], t0⟩ hbs hpoll p hp⟩

/-- Witness for the amended C5: the push adapter flushes exactly at the
cap on a two-message run, and the pull counterexample run stays within
the amended `2·batch_size − 1` bound. -/
theorem flush_payload_bounds_witness :
    ([10, 20] : List Nat).length ≤ 2 ∧
    ([1, 2, 3, 4, 5, 6, 7, 8, 9] : List Nat).length ≤ 2 * 5 - 1 :=
  ⟨(flush_payload_bounds 2 60 7 (fun _ => true) 0 (by decide)).1
      [⟨false, [⟨some 10, 1, 0⟩, ⟨some 20, 2, 1⟩]⟩] [10, 20] (by decide),
   (flush_payload_bounds 5 60 7 (fun _ => true) 0 (by decide)).2
      [⟨false, .ok [(some 1, 11), (some 2, 12), (some 3, 13), (some 4, 14)],
        1, []⟩,
       ⟨false, .ok [(some 5, 15), (some 6, 16), (some 7, 17), (some 8, 18),
        (some 9, 19)], 2, []⟩]
      [1, 2, 3, 4, 5, 6, 7, 8, 9]
      (by
        intro c hc msgs hmsgs
        rcases List.mem_cons.mp hc with h | h
        · subst h
          injection hmsgs with h2
          subst h2
          decide
        · rcases List.mem_cons.mp h with h1 | h1
          · subst h1
            injection hmsgs with h2
            subst h2
            decide
          · exact absurd h1 (List.not_mem_nil c))
      (by decide)⟩

/-- C7 is false for token-deletion errors: a raising `delete_message` is
caught by the inner batch handler (line 151), which only logs and clears
the batch; the outer handler (lines 158–160) never sees the exception, so
no sleep follows.  Concretely: the callback succeeds, the delete of
receipt 101 raises, and the iteration's whole trace is the dispatch and
the batch-error log — it contains no sleep action. -/
theorem delete_error_no_sleep_counterexample :
    (sqsCycle 2 60 7 (fun _ => true) (⟨[], [], 0⟩ : SqsState Nat)
        ⟨false, .ok [(some 1, 101), (some 2, 102)], 0, [101]⟩).2 =
      [Action.dispatch [1, 2], Action.logBatchError] ∧
    (sqsCycle 2 60 7 (fun _ => true) (⟨[], [], 0⟩ : SqsState Nat)
        ⟨false, .ok [(some 1, 101), (some 2, 102)], 0, [101]⟩).2.countP
      Action.isSleep = 0 := by
  decide

/-- C7 amended: a transport error raised by the poll itself is logged and
followed by a sleep of the polling interval, and the loop continues
(lines 158–160).  A transport error during token deletion is caught by
the inner batch handler instead: it is logged, the batch and receipt
lists are cleared, and the loop continues, but without any sleep.
Neither kind of error terminates the loop. -/
theorem transport_error_tolerance {α : Type} (bs ft pi : Nat)
    (cb : List α → Bool) :
    (∀ (s : SqsState α) (now : Nat) (fd : List Nat) (cs : List (SqsCycle α)),
        runSqs bs ft pi cb s (⟨false, .err, now, fd⟩ :: cs) =
          ((runSqs bs ft pi cb s cs).1,
            Action.logPollError :: Action.sleep pi ::
              (runSqs bs ft pi cb s cs).2)) ∧
    (∀ (s : SqsState α) (msgs : List (Option α × Nat)) (now : Nat)
        (fd : List Nat) (cs : List (SqsCycle α)),
        ((pollAppend s msgs).1.batch.isEmpty = false ∧
          ((pollAppend s msgs).1.batch.length ≥ bs ∨
            now - (pollAppend s msgs).1.lastFlushTime ≥ ft)) →
        cb (pollAppend s msgs).1.batch = true →
        (runDeletes (α := α) fd (pollAppend s msgs).1.receipts).2 = true →
        Action.logBatchError ∈
            (sqsCycle bs ft pi cb s ⟨false, .ok msgs, now, fd⟩).2 ∧
          (∀ a ∈ (sqsCycle bs ft pi cb s ⟨false, .ok msgs, now, fd⟩).2,
            a.isSleep = false) ∧
          (sqsCycle bs ft pi cb s ⟨false, .ok msgs, now, fd⟩).1 =
            ⟨[], [], now⟩ ∧
          runSqs bs ft pi cb s (⟨false, .ok msgs, now, fd⟩ :: cs) =
            ((runSqs bs ft pi cb ⟨[], [], now⟩ cs).1,
              (sqsCycle bs ft pi cb s ⟨false, .ok msgs, now, fd⟩).2 ++
                (runSqs bs ft pi cb ⟨[], [], now⟩ cs).2)) := by
  constructor
  · intro s now fd cs
    simp [runSqs, sqsCycle]
  · intro s msgs now fd cs hcond hcb hdr
    have hacts : (sqsCycle bs ft pi cb s ⟨false, .ok msgs, now, fd⟩).2 =
        (pollAppend s msgs).2 ++
          (Action.dispatch (pollAppend s msgs).1.batch ::
            (runDeletes (α := α) fd (pollAppend s msgs).1.receipts).1 ++
            [Action.logBatchError]) := by
      simp only [sqsCycle]
      rw [if_pos hcond, if_pos hcb, if_pos hdr]
    have hstate : (sqsCycle bs ft pi cb s ⟨false, .ok msgs, now, fd⟩).1 =
        ⟨[], [], now⟩ := by
      simp only [sqsCycle]
      rw [if_pos hcond]
    refine ⟨?_, ?_, hstate, ?_⟩
    · rw [hacts]
      simp
    · intro a ha
      rw [hacts] at ha
      rcases List.mem_append.mp ha with h1 | h1
      · rw [pollAppend_snd] at h1
        rw [List.eq_of_mem_replicate h1]
        rfl
      · rcases List.mem_cons.mp h1 with h2 | h2
        · rw [h2]
          rfl
        · rcases List.mem_append.mp h2 with h3 | h3
          · obtain ⟨hh, he⟩ :=
              runDeletes_mem fd (pollAppend s msgs).1.receipts a h3
            rw [he]
            rfl
          · rw [List.mem_singleton.mp h3]
            rfl
    · simp only [runSqs]
      rw [if_neg (by simp), hstate]

/-- Witness for the amended C7: a concrete poll error, and a concrete
flush whose first delete raises; the trace of the latter holds the log
and no sleep, the loop goes on in both cases. -/
theorem transport_error_tolerance_witness :
    runSqs 2 60 7 (fun _ => true) (⟨[10], [110], 0⟩ : SqsState Nat)
        [⟨false, .err, 1, []⟩] =
      ((runSqs 2 60 7 (fun _ => true) (⟨[10], [110], 0⟩ : SqsState Nat) []).1,
        Action.logPollError :: Action.sleep 7 ::
          (runSqs 2 60 7 (fun _ => true)
            (⟨[10], [110], 0⟩ : SqsState Nat) []).2) ∧
    Action.logBatchError ∈
      (sqsCycle 2 60 7 (fun _ => true) (⟨[], [], 0⟩ : SqsState Nat)
        ⟨false, .ok [(some 1, 101), (some 2, 102)], 0, [101]⟩).2 ∧
    (sqsCycle 2 60 7 (fun _ => true) (⟨[], [], 0⟩ : SqsState Nat)
        ⟨false, .ok [(some 1, 101), (some 2, 102)], 0, [101]⟩).1 =
      ⟨[], [], 0⟩ :=
  ⟨(transport_error_tolerance 2 60 7 (fun _ => true)).1 ⟨[10], [110], 0⟩ 1 [] [],
   ((transport_error_tolerance 2 60 7 (fun _ => true)).2 ⟨[], [], 0⟩
      [(some 1, 101), (some 2, 102)] 0 [101] [] (by decide) rfl
      (by decide)).1,
   ((transport_error_tolerance 2 60 7 (fun _ => true)).2 ⟨[], [], 0⟩
      [(some 1, 101), (some 2, 102)] 0 [101] [] (by decide) rfl
      (by decide)).2.2.1⟩

end QueueHandler
